import Mathlib

/-!
Shallow embedding of the runtime module-resolution and toggle-coordination
subsystem of the `root-config` repository (src/src/org-root-config.ts and
src/src/root-config-shell-ui.ts).

JavaScript values are modelled as follows: strings are Lean `String`
(JS `slice` on UTF-16 code units is modelled on the character list), JS
`Set<string>` is a duplicate-free list built in insertion order, JS `Map`
is an association list where the most recent binding shadows older ones,
and parsed JSON values are the inductive `JsonVal`.  Promise-based code is
modelled by explicit state passing: each operation returns its result
together with the updated caches/counters, and the number of network
requests it performs.
-/

namespace RootConfig

/-! ## String utilities mirroring the JavaScript string/regex operations -/

/-- Whether the pattern list is an initial segment of the second list. -/
def leadsWith : List Char → List Char → Bool
  | [], _ => true
  | _ :: _, [] => false
  | p :: ps, c :: cs => p == c && leadsWith ps cs

/-- Whether `needle` occurs contiguously inside `hay` (JS `String.includes`). -/
def containsSub (needle : List Char) : List Char → Bool
  | [] => needle.isEmpty
  | c :: rest => leadsWith needle (c :: rest) || containsSub needle rest

/-- JS `hay.includes(needle)`. -/
def strContains (hay needle : String) : Bool :=
  containsSub needle.data hay.data

/-- JS `s.slice(0, n)`. -/
def strSliceTo (n : Nat) (s : String) : String :=
  ⟨s.data.take n⟩

/-- JS `s.slice(-n)`: the last `n` code units (the whole string when shorter). -/
def strSliceLast (n : Nat) (s : String) : String :=
  ⟨s.data.drop (s.data.length - n)⟩

/-- Characters matched by the regex class `\s` (ASCII whitespace plus NBSP). -/
def isSpaceChar (c : Char) : Bool :=
  c == ' ' || c == '\t' || c == '\n' || c == '\r' || c == '\x0b' || c == '\x0c' ||
  c == ' '

/-- Consume the rest of a `//` line comment; the regex alternative
`\/\/[^\n]*\n` requires the terminating newline, so an unterminated line
comment fails to match. -/
def afterLineComment : List Char → Option (List Char)
  | [] => none
  | '\n' :: rest => some rest
  | _ :: rest => afterLineComment rest

/-- Consume the rest of a `/* ... */` block comment (lazy, up to the first
closing delimiter), failing when unterminated. -/
def afterBlockComment : List Char → Option (List Char)
  | '*' :: '/' :: rest => some rest
  | _ :: rest => afterBlockComment rest
  | [] => none

/-- Skip `\s*` followed by any number of comments each followed by `\s*`,
as in the prefix of the `System.register` detection regex.  `fuel` bounds
the recursion; callers pass the input length plus one, which suffices since
every consumed comment is non-empty. -/
def skipCommentsWs : Nat → List Char → List Char
  | 0, l => l
  | fuel + 1, l =>
    let l := l.dropWhile isSpaceChar
    match l with
    | '/' :: '/' :: rest =>
      match afterLineComment rest with
      | some r => skipCommentsWs fuel r
      | none => l
    | '/' :: '*' :: rest =>
      match afterBlockComment rest with
      | some r => skipCommentsWs fuel r
      | none => l
    | _ => l

/-- Strip a literal token from the head of the list, if present. -/
def stripToken (tok : List Char) (l : List Char) : Option (List Char) :=
  if leadsWith tok l then some (l.drop tok.length) else none

/-- The test
`/^\s*(?:(?:\/\/[^\n]*\n|\/\*[\s\S]*?\*\/)\s*)*(?:"use strict";\s*)?System\.register\(/`
from `analyzeSource`: the source begins — after whitespace, comments and an
optional `"use strict";` directive — with a `System.register(` call. -/
def hasSystemRegister (head : String) : Bool :=
  let l := skipCommentsWs (head.data.length + 1) head.data
  let l2 :=
    match stripToken "\"use strict\";".data l with
    | some r => r.dropWhile isSpaceChar
    | none => l
  leadsWith "System.register(".data l2

/-- The UMD wrapper token triple from `analyzeSource`:
`/typeof exports/` and `/define\.amd/` and `/module\.exports|exports\[/`. -/
def hasUmdWrapper (head : String) : Bool :=
  strContains head "typeof exports" &&
  strContains head "define.amd" &&
  (strContains head "module.exports" || strContains head "exports[")

/-- Whether the list starts (after same-line whitespace) with `import` or
`export` followed by a whitespace character. -/
def startsModuleKw (l : List Char) : Bool :=
  let t := l.dropWhile (fun c => isSpaceChar c && !(c == '\n'))
  (leadsWith "import".data t || leadsWith "export".data t) &&
    (match t.drop 6 with
     | [] => false
     | c :: _ => isSpaceChar c)

/-- Scan every position following a newline for a module keyword. -/
def esmAnchorScan : List Char → Bool
  | [] => false
  | '\n' :: rest => startsModuleKw rest || esmAnchorScan rest
  | _ :: rest => esmAnchorScan rest

/-- The multiline test `/^\s*(import|export)\s/m`. -/
def hasEsmLineStart (s : String) : Bool :=
  startsModuleKw s.data || esmAnchorScan s.data

/-- The ESM syntax check of `analyzeSource`: a leading `import`/`export`
statement in the source, or an `export\x7b`-style marker in the source
(newline-prefixed) or anywhere in the tail. -/
def hasEsmMarkers (source tail : String) : Bool :=
  hasEsmLineStart source ||
  strContains source "\nexport\x7b" ||
  strContains source "\nexport \x7b" ||
  strContains tail "export\x7b" ||
  strContains tail "export \x7b"

/-! ## Module format detection (`detectModuleFormat`, lines 345–436) -/

/-- The four detector outcomes; `system` is the spec's legacy-registration
format, `umd` its global-script format and `esm` its native format. -/
inductive ModuleFormat where
  | system
  | esm
  | umd
  | unknown
deriving DecidableEq

/-- `analyzeSource(head, tail, full?)`: classify a bundle from its first
8 KiB, its last 4 KiB and (optionally) its full text. -/
def analyzeSource (head tail : String) (full : Option String) : ModuleFormat :=
  if hasSystemRegister head then .system
  else if hasUmdWrapper head then .umd
  else
    let source := full.getD head
    if hasEsmMarkers source tail then .esm
    else .unknown

/-- Outcome of the initial `Range: bytes=0-8191` probe.  `ranged` is an
HTTP 206 answer carrying the first 8 KiB, `whole` an HTTP 200 answer where
the server ignored the range and sent the full body, `badStatus` a non-ok
non-206 status, and `netFail` a network error or timeout. -/
inductive RangeOutcome where
  | netFail
  | badStatus
  | ranged (head : String)
  | whole (body : String)

/-- Outcome of the follow-up full-body fetch (`r.ok ? r.text() : ""`). -/
inductive BodyOutcome where
  | netFail
  | badStatus
  | ok (body : String)

/-- What the network would answer for one detection attempt. -/
structure NetworkBehavior where
  range : RangeOutcome
  fullBody : BodyOutcome

/-- The per-URL memo cache `moduleFormatCache` (a JS `Map`). -/
abbrev FormatCache := List (String × ModuleFormat)

/-- `detectModuleFormat(url)`: returns the detected format, the updated
memo cache, and the number of network requests performed by this call. -/
def detectModuleFormat (cache : FormatCache) (url : String) (net : NetworkBehavior) :
    ModuleFormat × FormatCache × Nat :=
  match List.lookup url cache with
  | some f => (f, cache, 0)
  | none =>
    match net.range with
    | .netFail => (.unknown, cache, 1)
    | .badStatus => (.unknown, cache, 1)
    | .whole body =>
      let fmt := analyzeSource (strSliceTo 8192 body) (strSliceLast 4096 body) (some body)
      (fmt, (url, fmt) :: cache, 1)
    | .ranged head =>
      let fmt := analyzeSource head "" none
      if fmt = .unknown then
        match net.fullBody with
        | .netFail => (.unknown, cache, 2)
        | .badStatus =>
          let fmt2 := analyzeSource (strSliceTo 8192 "") (strSliceLast 4096 "") (some "")
          (fmt2, (url, fmt2) :: cache, 2)
        | .ok body =>
          let fmt2 := analyzeSource (strSliceTo 8192 body) (strSliceLast 4096 body) (some body)
          (fmt2, (url, fmt2) :: cache, 2)
      else (fmt, (url, fmt) :: cache, 1)

/-- Whether one detection attempt stores its result in the memo cache:
exactly the runs whose outcome came from content analysis.  Results that
stem from a network failure or a non-2xx/206 range status are not stored. -/
def cachesResult (net : NetworkBehavior) : Bool :=
  match net.range with
  | .netFail => false
  | .badStatus => false
  | .whole _ => true
  | .ranged head =>
    if analyzeSource head "" none = .unknown then
      match net.fullBody with
      | .netFail => false
      | .badStatus => true
      | .ok _ => true
    else true

/-! ## JSON values and JavaScript value helpers -/

/-- Parsed JSON values (the possible results of `res.json()` /
`JSON.parse`). -/
inductive JsonVal where
  | jnull
  | jbool (b : Bool)
  | jnum (n : Int)
  | jstr (s : String)
  | jarr (elems : List JsonVal)
  | jobj (fields : List (String × JsonVal))

/-- JavaScript truthiness of a JSON value. -/
def jsTruthy : JsonVal → Bool
  | .jnull => false
  | .jbool b => b
  | .jnum n => decide (n ≠ 0)
  | .jstr s => decide (s ≠ "")
  | .jarr _ => true
  | .jobj _ => true

/-- Whether `typeof v === "object"` (true for `null` and arrays). -/
def typeofIsObject : JsonVal → Bool
  | .jnull => true
  | .jarr _ => true
  | .jobj _ => true
  | _ => false

/-- `Array.isArray(v)`. -/
def isJsonArr : JsonVal → Bool
  | .jarr _ => true
  | _ => false

/-- Property access `v[k]` (undefined on primitives and arrays, whose
elements are indexed by number, not by the property names used here). -/
def jsProp : JsonVal → String → Option JsonVal
  | .jobj fields, k => List.lookup k fields
  | _, _ => none

/-- `Object.entries(v)`: fields of an object, index/value pairs of an
array, empty otherwise. -/
def jsEntries : JsonVal → List (String × JsonVal)
  | .jobj fields => fields
  | .jarr xs => ((List.range xs.length).zip xs).map (fun p => (toString p.1, p.2))
  | _ => []

/-- `xs.filter((name) => typeof name === "string")`. -/
def stringsOf : List JsonVal → List String
  | [] => []
  | .jstr s :: rest => s :: stringsOf rest
  | _ :: rest => stringsOf rest

mutual

/-- `JSON.stringify` (string escaping is not modelled; only equality and
non-emptiness of serialisations are used). -/
def stringify : JsonVal → String
  | .jnull => "null"
  | .jbool true => "true"
  | .jbool false => "false"
  | .jnum n => toString n
  | .jstr s => "\"" ++ s ++ "\""
  | .jarr xs => "[" ++ stringifyArr xs ++ "]"
  | .jobj fs => "\x7b" ++ stringifyObj fs ++ "\x7d"

/-- Serialise array elements, comma-separated. -/
def stringifyArr : List JsonVal → String
  | [] => ""
  | [x] => stringify x
  | x :: rest => stringify x ++ "," ++ stringifyArr rest

/-- Serialise object fields, comma-separated. -/
def stringifyObj : List (String × JsonVal) → String
  | [] => ""
  | [(k, v)] => "\"" ++ k ++ "\":" ++ stringify v
  | (k, v) :: rest =>
    "\"" ++ k ++ "\":" ++ stringify v ++ "," ++ stringifyObj rest

end

/-! ## Disabled-set sanitisation (`org-root-config.ts` lines 104, 118–119,
454–462) -/

/-- The always-on exemption set (`ALWAYS_ON_APPS`); empty in the source. -/
def ALWAYS_ON_APPS : List String := []

/-- Build a JS `Set` from a list: keep the first occurrence of each
element, in insertion order. -/
def dedupFirstAux : List String → List String → List String
  | _, [] => []
  | seen, n :: rest =>
    if seen.contains n then dedupFirstAux seen rest
    else n :: dedupFirstAux (n :: seen) rest

/-- `new Set(array)`. -/
def jsSetOf (l : List String) : List String := dedupFirstAux [] l

/-- `sanitizeDisabledApps`, generalised over the always-on constant the
source closes over (the body only tests membership in it). -/
def sanitizeDisabledAppsWith (alwaysOn names : List String) : List String :=
  jsSetOf (names.filter (fun n => !(alwaysOn.contains n)))

/-- `sanitizeDisabledApps(names)` as in the source, with `ALWAYS_ON_APPS`. -/
def sanitizeDisabledApps (names : List String) : List String :=
  sanitizeDisabledAppsWith ALWAYS_ON_APPS names

/-- `setRuntimeDisabledApps`, generalised over the always-on constant:
clear the runtime set, then add every name not in the exemption set. -/
def setRuntimeDisabledAppsWith (alwaysOn disabled : List String) : List String :=
  jsSetOf (disabled.filter (fun n => !(alwaysOn.contains n)))

/-- `setRuntimeDisabledApps(disabled)` as in the source. -/
def setRuntimeDisabledApps (disabled : List String) : List String :=
  setRuntimeDisabledAppsWith ALWAYS_ON_APPS disabled

/-! ## UMD script loader cache (`loadUmdScript`, lines 72 and 309–343) -/

/-- State of the UMD loader: the `umdLoads` promise cache (keys mapped to
promise identities), the keys of every script element inserted into the
document head so far, and a counter generating fresh promise identities. -/
structure UmdState where
  cache : List (String × Nat)
  inserted : List String
  nextId : Nat
deriving DecidableEq

/-- The cache key of `loadUmdScript`: on localhost the URL is suffixed
with a `Date.now()` cache-busting token. -/
def umdCacheKey (isLocal : Bool) (url : String) (now : Nat) : String :=
  if isLocal then url ++ "?t=" ++ toString now else url

/-- The synchronous section of `loadUmdScript`: a cache hit returns the
stored promise unchanged; a miss creates one script element, stores the
tracked promise under the key and returns it.  (The promise identity and
the updated state are returned.) -/
def loadUmdScript (s : UmdState) (key : String) : Nat × UmdState :=
  match List.lookup key s.cache with
  | some p => (p, s)
  | none =>
    (s.nextId,
     ⟨(key, s.nextId) :: s.cache, s.inserted ++ [key], s.nextId + 1⟩)

/-- Settlement of a rejected load (lines 335–339): the cache entry is
evicted so a later call may retry; pending/resolved entries are unaffected. -/
def umdSettleRejected (s : UmdState) (key : String) : UmdState :=
  { s with cache := s.cache.filter (fun p => !(p.1 == key)) }

/-- Run `n` consecutive `loadUmdScript` calls for the same key (the
single-threaded interleaving of `n` concurrent callers), collecting the
promise each caller observes. -/
def loadUmdN : Nat → UmdState → String → List Nat × UmdState
  | 0, s, _ => ([], s)
  | n + 1, s, key =>
    match loadUmdScript s key with
    | (p, s1) =>
      match loadUmdN n s1 key with
      | (ps, s2) => (p :: ps, s2)

/-! ## Reload guard and availability divergence (`safeReload` lines 46–51,
`runAvailabilityCheck` lines 1035–1083) -/

/-- The reload guard: the `reloadScheduled` flag plus a count of
`window.location.reload()` commands actually issued. -/
structure ReloadState where
  reloadScheduled : Bool
  reloads : Nat
deriving DecidableEq

/-- The page's initial reload state. -/
def initialReloadState : ReloadState := ⟨false, 0⟩

/-- `safeReload()`: reload at most once, guarded by `reloadScheduled`. -/
def safeReload (s : ReloadState) : ReloadState :=
  if s.reloadScheduled then s else ⟨true, s.reloads + 1⟩

/-- The disabled-rendering modes. -/
inductive DisabledMode where
  | hide
  | placeholder
deriving DecidableEq

/-- The normalised `disabledMode` shape produced by
`normalizeDisabledModeConfig` in `org-root-config.ts`
(`{default, apps}` with a mandatory default). -/
structure ServerModeConfig where
  dflt : DisabledMode
  apps : List (String × DisabledMode)
deriving DecidableEq

/-- An availability snapshot as cached/probed in local mode: the
`available` and `disabled` name sets (duplicate-free lists) and the
normalised `disabledMode`. -/
structure AvailabilitySnapshot where
  available : List String
  disabled : List String
  disabledMode : Option ServerModeConfig
deriving DecidableEq

/-- The field-by-field divergence test of `runAvailabilityCheck`
(lines 1071–1078): set sizes, `JSON.stringify` of the normalised
`disabledMode` (structural equality on normalised values), and membership
of every cached name in the fresh set. -/
def snapshotsDiverge (cached fresh : AvailabilitySnapshot) : Bool :=
  (cached.available.length != fresh.available.length) ||
  (cached.disabled.length != fresh.disabled.length) ||
  !(decide (cached.disabledMode = fresh.disabledMode)) ||
  cached.available.any (fun n => !(fresh.available.contains n)) ||
  cached.disabled.any (fun n => !(fresh.disabled.contains n))

/-- The reload decision at the end of `runAvailabilityCheck` when a cached
snapshot existed: reload (guarded) exactly when the snapshots diverge. -/
def runAvailabilityCheckReload (cached fresh : AvailabilitySnapshot)
    (s : ReloadState) : ReloadState :=
  if snapshotsDiverge cached fresh then safeReload s else s

/-! ## Disabled-mode normalisation (`org-root-config.ts` lines 121–146) -/

/-- Read a rendering mode out of a JSON value (`"hide"`/`"placeholder"`). -/
def modeOfJson : JsonVal → Option DisabledMode
  | .jstr "hide" => some .hide
  | .jstr "placeholder" => some .placeholder
  | _ => none

/-- JS object assignment `apps[name] = mode`: replace an existing binding
in place, otherwise append. -/
def upsertMode (acc : List (String × DisabledMode)) (k : String) (m : DisabledMode) :
    List (String × DisabledMode) :=
  if (List.lookup k acc).isSome then
    acc.map (fun p => if p.1 == k then (p.1, m) else p)
  else acc ++ [(k, m)]

/-- Fold entries into a per-app mode map, keeping only valid mode values. -/
def buildModeApps (entries : List (String × JsonVal)) : List (String × DisabledMode) :=
  entries.foldl
    (fun acc p =>
      match modeOfJson p.2 with
      | some m => upsertMode acc p.1 m
      | none => acc)
    []

/-- Insert an entry into a key-sorted entry list. -/
def insSortedEntry (p : String × JsonVal) :
    List (String × JsonVal) → List (String × JsonVal)
  | [] => [p]
  | q :: rest =>
    if decide (p.1 < q.1) then p :: q :: rest else q :: insSortedEntry p rest

/-- Sort entries by key (`.sort(([a], [b]) => a.localeCompare(b))`,
modelled with the lexicographic string order). -/
def sortEntriesByKey (l : List (String × JsonVal)) : List (String × JsonVal) :=
  l.foldr insSortedEntry []

/-- `normalizeDisabledModeConfig(value)` from `org-root-config.ts`:
a bare mode string, or an object with optional `default` (falling back to
`"hide"`) and an `apps` map whose invalid values are dropped; anything
else is `undefined`. -/
def normalizeDisabledModeConfig : Option JsonVal → Option ServerModeConfig
  | none => none
  | some v =>
    match v with
    | .jstr "hide" => some ⟨.hide, []⟩
    | .jstr "placeholder" => some ⟨.placeholder, []⟩
    | _ =>
      if !(jsTruthy v) || !(typeofIsObject v) || isJsonArr v then none
      else
        let appsEntries :=
          match jsProp v "apps" with
          | some a =>
            if jsTruthy a && typeofIsObject a && !(isJsonArr a) then
              sortEntriesByKey (jsEntries a)
            else []
          | none => []
        let dflt := ((jsProp v "default").bind modeOfJson).getD .hide
        some ⟨dflt, buildModeApps appsEntries⟩

/-! ## Remote toggle service state (`getServerToggleState`, lines 166–186) -/

/-- The parsed toggle state: the sanitised disabled list and the
normalised disabled-mode configuration. -/
structure ToggleState where
  disabled : List String
  disabledMode : Option ServerModeConfig
deriving DecidableEq

/-- Outcome of the toggle `GET`: network failure, non-2xx status, a body
that fails to parse as JSON, or a parsed JSON value. -/
inductive ToggleFetchOutcome where
  | err
  | notOk
  | badJson
  | parsed (v : JsonVal)

/-- The body-shape handling of `getServerToggleState` (lines 169–184). -/
def toggleFromData (v : JsonVal) : ToggleState :=
  if !(jsTruthy v) || !(typeofIsObject v) || isJsonArr v then ⟨[], none⟩
  else
    match v with
    | .jobj fields =>
      let disabled :=
        match List.lookup "disabled" fields with
        | some (.jarr xs) => sanitizeDisabledApps (stringsOf xs)
        | _ => []
      ⟨disabled, normalizeDisabledModeConfig (List.lookup "disabledMode" fields)⟩
    | _ => ⟨[], none⟩

/-- `getServerToggleState()`: every failure path resolves (the function is
total — it never rejects); a non-ok response is replaced by the literal
`\x7bdisabled: []\x7d` before the shape checks run. -/
def getServerToggleState : ToggleFetchOutcome → ToggleState
  | .err => ⟨[], none⟩
  | .badJson => ⟨[], none⟩
  | .notOk => toggleFromData (.jobj [("disabled", .jarr [])])
  | .parsed v => toggleFromData v

/-! ## Remote-toggle poller (`watchServerToggle`, lines 465–514) -/

/-- Poller state: the `last` serialised payload (empty before the first
valid poll) and the page's reload guard. -/
structure WatchState where
  last : String
  reload : ReloadState
deriving DecidableEq

/-- Poller state at page start. -/
def initialWatchState : WatchState := ⟨"", initialReloadState⟩

/-- Outcome of one poll request. -/
inductive PollOutcome where
  | err
  | notOk
  | badJson
  | parsed (v : JsonVal)

/-- The poller's payload acceptance test: `data` truthy and
`typeof data === "object"`. -/
def acceptedPoll (v : JsonVal) : Bool := jsTruthy v && typeofIsObject v

/-- One `poll()` tick (lines 487–504): failures and non-object payloads
are ignored; an accepted payload reloads only when a baseline exists and
the serialisation differs, and always becomes the new baseline. -/
def watchPollStep (s : WatchState) (o : PollOutcome) : WatchState :=
  match o with
  | .err => s
  | .notOk => s
  | .badJson => s
  | .parsed v =>
    if acceptedPoll v then
      let next := stringify v
      let r :=
        if s.last != "" && next != s.last then safeReload s.reload else s.reload
      ⟨next, r⟩
    else s

/-! ## Shell-UI disabled-mode merge (`root-config-shell-ui.ts`
lines 81–122) -/

/-- The normalised shape used by the shell UI (`{default?, apps}` with an
optional default). -/
structure UiModeConfig where
  dflt : Option DisabledMode
  apps : List (String × DisabledMode)
deriving DecidableEq

/-- `normalizeDisabledModeConfig(config)` from `root-config-shell-ui.ts`:
falsy input gives an empty config; a bare mode string gives a default with
no per-app map; otherwise the `apps` property (any truthy object,
arrays included) is filtered to valid modes and `default` is kept only
when it is itself a valid mode. -/
def normalizeDisabledModeConfigUi : Option JsonVal → UiModeConfig
  | none => ⟨none, []⟩
  | some v =>
    if !(jsTruthy v) then ⟨none, []⟩
    else
      match v with
      | .jstr "hide" => ⟨some .hide, []⟩
      | .jstr "placeholder" => ⟨some .placeholder, []⟩
      | _ =>
        let apps :=
          match jsProp v "apps" with
          | some a =>
            if jsTruthy a && typeofIsObject a then buildModeApps (jsEntries a)
            else []
          | none => []
        ⟨(jsProp v "default").bind modeOfJson, apps⟩

/-- What the device-local storage read contributes: no stored value, a
value that fails `JSON.parse`, or a parsed value. -/
inductive StorageRead where
  | absent
  | badJson
  | value (v : JsonVal)

/-- The storage acceptance filter of `readDisabledModeConfig`
(lines 100–115): only a bare mode string or a non-null, non-array object
is kept. -/
def readStorageConfig : StorageRead → Option JsonVal
  | .absent => none
  | .badJson => none
  | .value v =>
    match v with
    | .jstr "hide" => some (.jstr "hide")
    | .jstr "placeholder" => some (.jstr "placeholder")
    | .jobj fields => some (.jobj fields)
    | _ => none

/-- JS object spread `\x7b...a, ...b\x7d` on per-app maps: keys of `a`
keep their position but take `b`'s value when overridden; keys only in `b`
are appended. -/
def spreadMerge (a b : List (String × DisabledMode)) : List (String × DisabledMode) :=
  a.map (fun p =>
    match List.lookup p.1 b with
    | some m => (p.1, m)
    | none => p) ++
  b.filter (fun p => (List.lookup p.1 a).isNone)

/-- `readDisabledModeConfig()`: normalise the window-published remote
config and the stored local override, then merge with local precedence
(`override.default ?? base.default`, `\x7b...base.apps, ...override.apps\x7d`). -/
def readDisabledModeConfig (remote : Option JsonVal) (stored : StorageRead) :
    UiModeConfig :=
  let base := normalizeDisabledModeConfigUi remote
  let override := normalizeDisabledModeConfigUi (readStorageConfig stored)
  ⟨override.dflt <|> base.dflt, spreadMerge base.apps override.apps⟩

/-! ## Application loader (`loadApp`, lines 617–692) -/

/-- A lifecycle function: the trivial `() => Promise.resolve()` used for
unavailable apps, or a wrapped lifecycle of a loaded module. -/
inductive Lifecycle where
  | trivialResolve
  | moduleLifecycle (app phase : String)
deriving DecidableEq

/-- The `bootstrap`/`mount`/`unmount` triple returned by `loadApp`. -/
structure LifecycleHandle where
  bootstrap : Lifecycle
  mount : Lifecycle
  unmount : Lifecycle
deriving DecidableEq

/-- `createUnavailableApp(name)` (lines 444–448): the no-op handle. -/
def createUnavailableApp (_name : String) : LifecycleHandle :=
  ⟨.trivialResolve, .trivialResolve, .trivialResolve⟩

/-- The `umdApps` registry (lines 53–70): name, url, exposed global. -/
def umdApps : List (String × String × String) := [
  ("@org/profile-vue", "//localhost:9002/profile-vue.js", "profileVue"),
  ("@org/playground-vanilla", "//localhost:9008/org-playground-vanilla.js",
    "playgroundVanilla"),
  ("@org/simple-vanilla", "//localhost:9009/org-simple-vanilla.js",
    "simpleVanilla"),
  ("@org/dashboard-vue", "//localhost:9004/dashboard-vue.js", "dashboardVue")]

/-- The `systemFirstApps` registry (lines 594–605). -/
def systemFirstApps : List String := [
  "@org/header-react", "@org/footer-react", "@org/catalog",
  "@org/playground-react", "@org/checkout-angular", "@org/auth-angular",
  "@org/playground-angular", "@org/playground-vue", "@org/playground-svelte",
  "@org/simple-vanilla"]

/-- The four branches of `loadApp`'s decision order. -/
inductive LoadStrategy where
  | disabledNoop
  | umdGlobalScript (url global : String)
  | systemFirstImport
  | nativeImport
deriving DecidableEq

/-- The branch `loadApp` takes for a name, given the current
runtime-disabled set: disabled names short-circuit before any registry or
network consultation. -/
def loadAppStrategy (runtimeDisabled : List String) (name : String) : LoadStrategy :=
  if runtimeDisabled.contains name then .disabledNoop
  else
    match List.lookup name umdApps with
    | some (url, global) => .umdGlobalScript url global
    | none =>
      if systemFirstApps.contains name then .systemFirstImport
      else .nativeImport

/-- Whether a branch performs any network activity (script insertion,
format probe or dynamic import). -/
def strategyTouchesNetwork : LoadStrategy → Bool
  | .disabledNoop => false
  | _ => true

/-- The handle `loadApp` resolves with synchronously, without any network
round-trip: only the disabled branch resolves immediately, with the no-op
handle (`Promise.resolve(createUnavailableApp(name))`). -/
def strategyImmediateHandle (name : String) : LoadStrategy → Option LifecycleHandle
  | .disabledNoop => some (createUnavailableApp name)
  | _ => none

/-- The production-startup effective disabled set (lines 992–995): the
sanitised union of the device-local and the remote disabled lists. -/
def startupEffectiveDisabled (localDisabled serverDisabled : List String) :
    List String :=
  sanitizeDisabledApps (localDisabled ++ serverDisabled)

/-! ## Helper lemmas -/

theorem mem_dedupFirstAux {a : String} (seen l : List String)
    (h : a ∈ dedupFirstAux seen l) : a ∈ l := by
  induction l generalizing seen with
  | nil => simp [dedupFirstAux] at h
  | cons n rest ih =>
    simp only [dedupFirstAux] at h
    split at h
    · exact List.mem_cons_of_mem _ (ih _ h)
    · rcases List.mem_cons.mp h with rfl | h'
      · exact List.mem_cons_self _ _
      · exact List.mem_cons_of_mem _ (ih _ h')

theorem mem_jsSetOf_filter {a : String} (alwaysOn l : List String)
    (h : a ∈ jsSetOf (l.filter (fun n => !(alwaysOn.contains n)))) :
    a ∈ l ∧ alwaysOn.contains a = false := by
  have h1 := mem_dedupFirstAux _ _ h
  refine ⟨List.mem_of_mem_filter h1, ?_⟩
  have h2 := List.of_mem_filter h1
  cases hb : alwaysOn.contains a with
  | false => rfl
  | true => rw [hb] at h2; simp at h2

/-- C1: sanitising any input collection of names yields a set disjoint
from the always-on exemption set: both `sanitizeDisabledApps` and
`setRuntimeDisabledApps` (generalised here over the `ALWAYS_ON_APPS`
constant their bodies test membership in) remove every exempted name, for
every input — the spec's `sanitize(X) ∩ alwaysOn = ∅`.  The repository's
own `ALWAYS_ON_APPS` is the empty list, for which the specialised forms
agree with the generalised ones. -/
theorem sanitize_always_on_disjoint (alwaysOn names disabled : List String) :
    (sanitizeDisabledAppsWith alwaysOn names).filter
        (fun n => alwaysOn.contains n) = [] ∧
    (setRuntimeDisabledAppsWith alwaysOn disabled).filter
        (fun n => alwaysOn.contains n) = [] ∧
    sanitizeDisabledApps names = sanitizeDisabledAppsWith ALWAYS_ON_APPS names ∧
    setRuntimeDisabledApps disabled
      = setRuntimeDisabledAppsWith ALWAYS_ON_APPS disabled := by
  refine ⟨?_, ?_, rfl, rfl⟩
  · rw [List.filter_eq_nil_iff]
    intro a ha
    have h := (mem_jsSetOf_filter alwaysOn names ha).2
    simpa using h
  · rw [List.filter_eq_nil_iff]
    intro a ha
    have h := (mem_jsSetOf_filter alwaysOn disabled ha).2
    simpa using h

/-! ## C2: detection memoization -/

theorem detect_cache_hit (c : FormatCache) (url : String) (net : NetworkBehavior)
    (f : ModuleFormat) (h : List.lookup url c = some f) :
    detectModuleFormat c url net = (f, c, 0) := by
  simp [detectModuleFormat, h]

theorem detect_stores_analyzed (c : FormatCache) (url : String)
    (net : NetworkBehavior) (h0 : List.lookup url c = none)
    (h1 : cachesResult net = true) :
    (detectModuleFormat c url net).2.1
      = (url, (detectModuleFormat c url net).1) :: c := by
  rcases net with ⟨range, fullb⟩
  cases range with
  | netFail => simp [cachesResult] at h1
  | badStatus => simp [cachesResult] at h1
  | whole body => simp [detectModuleFormat, h0]
  | ranged head =>
    by_cases hu : analyzeSource head "" none = .unknown
    · cases fullb with
      | netFail => simp [cachesResult, hu] at h1
      | badStatus => simp [detectModuleFormat, h0, hu]
      | ok body => simp [detectModuleFormat, h0, hu]
    · simp [detectModuleFormat, h0, hu]

/-- C2 (amended): when a first `detectModuleFormat` call for an uncached
URL completes content analysis (`cachesResult` — every path that reaches
`analyzeSource` and stores its verdict, including an `unknown` verdict
from a full-body analysis), a second call for the same URL returns the
identical memoized value, leaves the cache unchanged, and performs zero
network requests, whatever the network would now answer.  Results from a
network failure or a non-2xx/206 range status are NOT memoized (see the
counterexample), which is the one correction to the claim. -/
theorem detect_second_call_memoized (c : FormatCache) (url : String)
    (net : NetworkBehavior) (h0 : List.lookup url c = none)
    (h1 : cachesResult net = true) :
    ∀ net2 : NetworkBehavior,
      detectModuleFormat (detectModuleFormat c url net).2.1 url net2
        = ((detectModuleFormat c url net).1,
           (detectModuleFormat c url net).2.1, 0) := by
  intro net2
  have hs := detect_stores_analyzed c url net h0 h1
  have hk : List.lookup url (detectModuleFormat c url net).2.1
      = some (detectModuleFormat c url net).1 := by
    rw [hs]; simp [List.lookup]
  exact detect_cache_hit _ _ _ _ hk

/-- Witness for C2 at a concrete input: a 200 answer with an analysed
body (verdict `unknown`, since the body carries no markers) is memoized —
the second call returns it with zero requests even though the network now
fails. -/
theorem detect_second_call_memoized_witness :
    detectModuleFormat
        (detectModuleFormat [] "https://cdn.test/widget.js"
            ⟨.whole "window.widget = 1;", .netFail⟩).2.1
        "https://cdn.test/widget.js" ⟨.netFail, .netFail⟩
      = ((detectModuleFormat [] "https://cdn.test/widget.js"
            ⟨.whole "window.widget = 1;", .netFail⟩).1,
         (detectModuleFormat [] "https://cdn.test/widget.js"
            ⟨.whole "window.widget = 1;", .netFail⟩).2.1, 0) :=
  detect_second_call_memoized [] "https://cdn.test/widget.js"
    ⟨.whole "window.widget = 1;", .netFail⟩ (by decide) (by decide)
    ⟨.netFail, .netFail⟩

/-- C2 counterexample: after a first `detect` whose outcome was `unknown`
because the range probe's network request failed, nothing is memoized —
the cache is still empty and the second call for the same URL performs
another network request (request count 1, not 0), contradicting the claim
for first calls whose `unknown` came from a network failure; a non-2xx/206
status behaves the same way. -/
theorem detect_unknown_failure_not_memoized_cex :
    detectModuleFormat [] "https://cdn.test/gone.js" ⟨.netFail, .netFail⟩
      = (.unknown, [], 1) ∧
    (detectModuleFormat
        (detectModuleFormat [] "https://cdn.test/gone.js"
          ⟨.netFail, .netFail⟩).2.1
        "https://cdn.test/gone.js" ⟨.netFail, .netFail⟩).2.2 = 1 ∧
    (detectModuleFormat [] "https://cdn.test/gone.js"
        ⟨.badStatus, .netFail⟩).2.1 = [] := by
  refine ⟨rfl, rfl, rfl⟩

/-! ## C3: UMD loader single insertion -/

theorem loadUmd_hit (s : UmdState) (key : String) (p : Nat)
    (h : List.lookup key s.cache = some p) : loadUmdScript s key = (p, s) := by
  simp [loadUmdScript, h]

theorem loadUmdN_hit (n : Nat) (s : UmdState) (key : String) (p : Nat)
    (h : List.lookup key s.cache = some p) :
    loadUmdN n s key = (List.replicate n p, s) := by
  induction n with
  | zero => simp [loadUmdN]
  | succ k ih => simp [loadUmdN, loadUmd_hit s key p h, ih, List.replicate_succ]

/-- C3: a `loadUmdScript` call finding a pending or resolved cache entry
for its key returns that entry unchanged with no side effect; and the
single-threaded interleaving of `N ≥ 1` concurrent calls for the same key,
starting with no entry, inserts exactly one script element and hands every
caller the same promise. -/
theorem umd_load_shared_promise_single_insertion :
    (∀ (s : UmdState) (key : String) (p : Nat),
        List.lookup key s.cache = some p → loadUmdScript s key = (p, s)) ∧
    (∀ (s : UmdState) (key : String) (n : Nat),
        List.lookup key s.cache = none →
          (loadUmdN (n + 1) s key).1 = List.replicate (n + 1) s.nextId ∧
          (loadUmdN (n + 1) s key).2.inserted = s.inserted ++ [key]) := by
  constructor
  · exact loadUmd_hit
  · intro s key n h
    have hmiss : loadUmdScript s key =
        (s.nextId,
         ⟨(key, s.nextId) :: s.cache, s.inserted ++ [key], s.nextId + 1⟩) := by
      simp [loadUmdScript, h]
    have hhit : List.lookup key
        ((⟨(key, s.nextId) :: s.cache, s.inserted ++ [key],
          s.nextId + 1⟩ : UmdState)).cache = some s.nextId := by
      simp [List.lookup]
    have hrest := loadUmdN_hit n _ key s.nextId hhit
    constructor <;> simp [loadUmdN, hmiss, hrest, List.replicate_succ]

/-- Witness for C3 at concrete inputs: a cache hit is returned unchanged,
and three interleaved calls for a fresh key observe one shared promise and
one script insertion. -/
theorem umd_load_shared_promise_single_insertion_witness :
    loadUmdScript ⟨[("https://u.js", 7)], ["https://u.js"], 8⟩ "https://u.js"
      = (7, ⟨[("https://u.js", 7)], ["https://u.js"], 8⟩) ∧
    ((loadUmdN (2 + 1) ⟨[], [], 0⟩ "https://u.js").1
        = List.replicate (2 + 1) (0 : Nat) ∧
     (loadUmdN (2 + 1) ⟨[], [], 0⟩ "https://u.js").2.inserted
        = ([] : List String) ++ ["https://u.js"]) :=
  ⟨umd_load_shared_promise_single_insertion.1
      ⟨[("https://u.js", 7)], ["https://u.js"], 8⟩ "https://u.js" 7 (by decide),
   umd_load_shared_promise_single_insertion.2 ⟨[], [], 0⟩ "https://u.js" 2
      (by decide)⟩

/-! ## C4: disabled app loads as a no-op without network -/

/-- C4: with remote toggle `disabled = ["@org/catalog"]`, an empty
device-local list and the repository's (empty) always-on set, the
effective disabled set is exactly `"@org/catalog"`; for that name
`loadApp` takes the disabled short-circuit before any registry or network
consultation, resolving immediately with the no-op handle
(`createUnavailableApp` — all three lifecycles trivially resolving) and
touching no network. -/
theorem catalog_disabled_noop_without_network :
    startupEffectiveDisabled [] ["@org/catalog"] = ["@org/catalog"] ∧
    (∀ n, n ∈ startupEffectiveDisabled [] ["@org/catalog"] ↔ n = "@org/catalog") ∧
    loadAppStrategy (startupEffectiveDisabled [] ["@org/catalog"]) "@org/catalog"
      = .disabledNoop ∧
    strategyTouchesNetwork
      (loadAppStrategy (startupEffectiveDisabled [] ["@org/catalog"])
        "@org/catalog") = false ∧
    strategyImmediateHandle "@org/catalog"
      (loadAppStrategy (startupEffectiveDisabled [] ["@org/catalog"])
        "@org/catalog")
      = some ⟨.trivialResolve, .trivialResolve, .trivialResolve⟩ := by
  have hset : startupEffectiveDisabled [] ["@org/catalog"] = ["@org/catalog"] := by
    decide
  refine ⟨hset, ?_, by decide, by decide, by decide⟩
  intro n
  rw [hset]
  simp

/-! ## C5: divergence triggers exactly one guarded reload -/

theorem safeReload_scheduled_fixed (s : ReloadState)
    (h : s.reloadScheduled = true) : safeReload s = s := by
  simp [safeReload, h]

/-- C5: the cached snapshot `available = {A, B}` versus the fresh probe
`available = {A}` is detected as divergent by the field-by-field
comparison; the availability check then issues exactly one reload from a
fresh page state, and any number of further reload signals (more
divergence checks, storage events, broadcast messages — all funnelled
through `safeReload`) leave the issued-reload count at one. -/
theorem divergence_triggers_single_reload :
    snapshotsDiverge ⟨["A", "B"], [], none⟩ ⟨["A"], [], none⟩ = true ∧
    (runAvailabilityCheckReload ⟨["A", "B"], [], none⟩ ⟨["A"], [], none⟩
        initialReloadState).reloads = 1 ∧
    ∀ n : Nat,
      (safeReload^[n]
        (runAvailabilityCheckReload ⟨["A", "B"], [], none⟩ ⟨["A"], [], none⟩
          initialReloadState)).reloads = 1 := by
  refine ⟨by decide, by decide, ?_⟩
  have hstate : runAvailabilityCheckReload ⟨["A", "B"], [], none⟩
      ⟨["A"], [], none⟩ initialReloadState = ⟨true, 1⟩ := by decide
  rw [hstate]
  intro n
  induction n with
  | zero => rfl
  | succ k ih =>
    rw [Function.iterate_succ_apply, safeReload_scheduled_fixed _ rfl]
    exact ih

/-! ## C6: a System.register head with HTTP 206 needs one request -/

/-- C6: when the range probe is answered with HTTP 206 and the delivered
first 8 KiB pass the legacy-registration preamble test (a
`System.register(` call first, optionally after comments and a
`"use strict"` directive), detection resolves to the legacy-registration
format with a single network request — zero beyond the initial partial
request — and memoizes it. -/
theorem ranged_system_register_single_request (c : FormatCache)
    (url head : String) (net : NetworkBehavior)
    (h0 : List.lookup url c = none) (h1 : net.range = .ranged head)
    (h2 : hasSystemRegister head = true) :
    detectModuleFormat c url net = (.system, (url, .system) :: c, 1) := by
  have ha : analyzeSource head "" none = .system := by
    simp [analyzeSource, h2]
  simp [detectModuleFormat, h0, h1, ha]

/-- Concrete head for the C6 witness: comments and a directive precede the
`System.register(` call. -/
def headC6 : String :=
  "// boot\n/* v1 */ \"use strict\"; System.register([], function () \x7b return \x7b\x7d; \x7d);"

/-- Witness for C6 at a concrete input. -/
theorem ranged_system_register_single_request_witness :
    detectModuleFormat [] "https://cdn.test/app.js" ⟨.ranged headC6, .netFail⟩
      = (.system, [("https://cdn.test/app.js", .system)], 1) :=
  ranged_system_register_single_request [] "https://cdn.test/app.js" headC6
    ⟨.ranged headC6, .netFail⟩ (by decide) rfl (by decide)

/-! ## C7: inconclusive head, ESM tail -/

/-- Concrete inputs for the C7 counterexample: the head carries no
legacy-registration preamble and no UMD token triple, but does start with
an `import` statement. -/
def headC7 : String := "import x from \"m\";\n"

/-- Full body whose tail contains `export\x7b`. -/
def bodyC7 : String := "import x from \"m\";\nexport\x7bx\x7d;\n"

/-- C7 counterexample: the first 8 KiB contain neither the
legacy-registration preamble nor the UMD token triple, and the full body's
tail contains `export\x7b` — yet `detect` resolves `esm` from the head
alone and performs a single network request: no additional full-body fetch
happens, contradicting the claimed "exactly one additional full-body
fetch". -/
theorem head_esm_no_second_fetch_cex :
    hasSystemRegister headC7 = false ∧ hasUmdWrapper headC7 = false ∧
    strContains (strSliceLast 4096 bodyC7) "export\x7b" = true ∧
    detectModuleFormat [] "https://cdn.test/mod.js"
        ⟨.ranged headC7, .ok bodyC7⟩
      = (.esm, [("https://cdn.test/mod.js", .esm)], 1) := by
  refine ⟨by decide, by decide, by decide, by decide⟩

/-- C7 (amended): when additionally the head analysis alone is
inconclusive (`analyzeSource head "" = unknown`: no ESM syntax is visible
in the first 8 KiB either), the detector performs exactly one additional
full-body fetch — two requests in total — and resolves the native (`esm`)
format when the full body's last 4 KiB contain `export\x7b` and the body
shows neither of the other two marker families. -/
theorem ranged_inconclusive_head_tail_esm (c : FormatCache)
    (url head body : String) (h0 : List.lookup url c = none)
    (h1 : analyzeSource head "" none = .unknown)
    (h2 : hasSystemRegister (strSliceTo 8192 body) = false)
    (h3 : hasUmdWrapper (strSliceTo 8192 body) = false)
    (h4 : strContains (strSliceLast 4096 body) "export\x7b" = true) :
    detectModuleFormat c url ⟨.ranged head, .ok body⟩
      = (.esm, (url, .esm) :: c, 2) := by
  have hesm : hasEsmMarkers body (strSliceLast 4096 body) = true := by
    simp [hasEsmMarkers, h4]
  have ha : analyzeSource (strSliceTo 8192 body) (strSliceLast 4096 body)
      (some body) = .esm := by
    simp [analyzeSource, h2, h3, hesm]
  simp [detectModuleFormat, h0, h1, ha]

/-- Concrete head for the C7 witness: no marker of any family. -/
def headC7w : String := "var x = 1;\n"

/-- Concrete body for the C7 witness: `export\x7b` only in the tail. -/
def bodyC7w : String := "var x = 1;\nexport\x7bx\x7d;\n"

/-- Witness for the amended C7 at concrete inputs. -/
theorem ranged_inconclusive_head_tail_esm_witness :
    detectModuleFormat [] "https://cdn.test/esm.js"
        ⟨.ranged headC7w, .ok bodyC7w⟩
      = (.esm, [("https://cdn.test/esm.js", .esm)], 2) :=
  ranged_inconclusive_head_tail_esm [] "https://cdn.test/esm.js" headC7w bodyC7w
    (by decide) (by decide) (by decide) (by decide) (by decide)

/-! ## C8: toggle endpoint error handling -/

/-- The claim's hard-malformed outcomes: network failure, non-2xx status,
unparseable body, or a body that is not a plain (non-null, non-array)
object. -/
def toggleHardMalformed : ToggleFetchOutcome → Bool
  | .err => true
  | .notOk => true
  | .badJson => true
  | .parsed (.jobj _) => false
  | .parsed _ => true

/-- Whether an object body's `disabled` field is an array. -/
def disabledFieldIsArray (fields : List (String × JsonVal)) : Bool :=
  match List.lookup "disabled" fields with
  | some (.jarr _) => true
  | _ => false

/-- Whether `name` occurs as a string entry of the body's `disabled`
array. -/
def disabledStringEntry : ToggleFetchOutcome → String → Bool
  | .parsed (.jobj fields), name =>
    (match List.lookup "disabled" fields with
     | some (.jarr xs) =>
       xs.any (fun x =>
         match x with
         | .jstr s => s == name
         | _ => false)
     | _ => false)
  | _, _ => false

theorem stringsOf_mem_any {name : String} (xs : List JsonVal)
    (h : name ∈ stringsOf xs) :
    xs.any (fun x =>
      match x with
      | .jstr s => s == name
      | _ => false) = true := by
  induction xs with
  | nil => simp [stringsOf] at h
  | cons x rest ih =>
    cases x with
    | jstr s =>
      simp only [stringsOf] at h
      rcases List.mem_cons.mp h with rfl | h'
      · simp
      · simp [ih h']
    | jnull => simp only [stringsOf] at h; simp [ih h]
    | jbool b => simp only [stringsOf] at h; simp [ih h]
    | jnum m => simp only [stringsOf] at h; simp [ih h]
    | jarr ys => simp only [stringsOf] at h; simp [ih h]
    | jobj fs => simp only [stringsOf] at h; simp [ih h]

/-- C8: `getServerToggleState` is a total function on fetch outcomes — it
never rejects or throws.  Every network failure, non-2xx status,
unparseable body or non-object body resolves to the empty state
`(disabled = [], disabledMode = none)`; an object body whose `disabled`
field is not an array contributes an empty disabled list; and every name
in the resolved disabled list is one of the string entries of the body's
`disabled` array (non-string entries are filtered out). -/
theorem server_toggle_never_rejects (o : ToggleFetchOutcome) :
    (toggleHardMalformed o = true → getServerToggleState o = ⟨[], none⟩) ∧
    (∀ fields, o = .parsed (.jobj fields) →
      disabledFieldIsArray fields = false →
      (getServerToggleState o).disabled = []) ∧
    (∀ name, name ∈ (getServerToggleState o).disabled →
      disabledStringEntry o name = true) := by
  refine ⟨?_, ?_, ?_⟩
  · intro h
    cases o with
    | err => rfl
    | notOk => rfl
    | badJson => rfl
    | parsed v =>
      cases v <;>
        simp_all [getServerToggleState, toggleFromData, toggleHardMalformed,
          jsTruthy, typeofIsObject, isJsonArr]
  · rintro fields rfl hfa
    rcases hl : List.lookup "disabled" fields with _ | w
    · simp [getServerToggleState, toggleFromData, jsTruthy, typeofIsObject,
        isJsonArr, hl]
    · cases w <;>
        simp_all [getServerToggleState, toggleFromData, jsTruthy,
          typeofIsObject, isJsonArr, disabledFieldIsArray]
  · intro name hmem
    cases o with
    | err => simp [getServerToggleState] at hmem
    | notOk =>
      have : (getServerToggleState .notOk).disabled = [] := rfl
      rw [this] at hmem
      simp at hmem
    | badJson => simp [getServerToggleState] at hmem
    | parsed v =>
      cases v with
      | jobj fields =>
        rcases hl : List.lookup "disabled" fields with _ | w
        · simp [getServerToggleState, toggleFromData, jsTruthy, typeofIsObject,
            isJsonArr, hl] at hmem
        · cases w with
          | jarr xs =>
            have hmem2 : name ∈ sanitizeDisabledApps (stringsOf xs) := by
              simpa [getServerToggleState, toggleFromData, jsTruthy,
                typeofIsObject, isJsonArr, hl] using hmem
            have h3 :=
              (mem_jsSetOf_filter ALWAYS_ON_APPS (stringsOf xs) hmem2).1
            simp [disabledStringEntry, hl, stringsOf_mem_any _ h3]
          | jnull =>
            simp [getServerToggleState, toggleFromData, jsTruthy,
              typeofIsObject, isJsonArr, hl] at hmem
          | jbool b =>
            simp [getServerToggleState, toggleFromData, jsTruthy,
              typeofIsObject, isJsonArr, hl] at hmem
          | jnum m =>
            simp [getServerToggleState, toggleFromData, jsTruthy,
              typeofIsObject, isJsonArr, hl] at hmem
          | jstr s =>
            simp [getServerToggleState, toggleFromData, jsTruthy,
              typeofIsObject, isJsonArr, hl] at hmem
          | jobj gs =>
            simp [getServerToggleState, toggleFromData, jsTruthy,
              typeofIsObject, isJsonArr, hl] at hmem
      | jnull => simp [getServerToggleState, toggleFromData, jsTruthy] at hmem
      | jbool b =>
        cases b <;>
          simp [getServerToggleState, toggleFromData, jsTruthy,
            typeofIsObject] at hmem
      | jnum m =>
        simp [getServerToggleState, toggleFromData, jsTruthy,
          typeofIsObject] at hmem
      | jstr s =>
        simp [getServerToggleState, toggleFromData, jsTruthy,
          typeofIsObject] at hmem
      | jarr ys =>
        simp [getServerToggleState, toggleFromData, jsTruthy, typeofIsObject,
          isJsonArr] at hmem

/-- Witness for C8 at concrete inputs: a string body resolves to the empty
state, a body whose `disabled` field is a number contributes no disabled
names, and a mixed-type `disabled` array only contributes its string
entries. -/
theorem server_toggle_never_rejects_witness :
    getServerToggleState (.parsed (.jstr "oops")) = ⟨[], none⟩ ∧
    (getServerToggleState
        (.parsed (.jobj [("disabled", .jnum 5)]))).disabled = [] ∧
    disabledStringEntry
      (.parsed (.jobj [("disabled", .jarr [.jstr "@org/a", .jnull])]))
      "@org/a" = true :=
  ⟨(server_toggle_never_rejects (.parsed (.jstr "oops"))).1 (by decide),
   (server_toggle_never_rejects
      (.parsed (.jobj [("disabled", .jnum 5)]))).2.1
      [("disabled", .jnum 5)] rfl (by decide),
   (server_toggle_never_rejects
      (.parsed (.jobj [("disabled", .jarr [.jstr "@org/a", .jnull])]))).2.2
      "@org/a" (by decide)⟩

/-! ## C9: disabled-mode merge precedence -/

theorem lookup_append_mode (k : String) (l1 l2 : List (String × DisabledMode)) :
    List.lookup k (l1 ++ l2)
      = (List.lookup k l1<|>List.lookup k l2) := by
  induction l1 with
  | nil => simp
  | cons p rest ih =>
    rcases p with ⟨a, b⟩
    cases hk : (k == a) with
    | true => simp [List.lookup, hk]
    | false => simp [List.lookup, hk, ih]

theorem lookup_spreadMap (k : String) (a b : List (String × DisabledMode)) :
    List.lookup k (a.map (fun p =>
        match List.lookup p.1 b with
        | some m => (p.1, m)
        | none => p))
      = match List.lookup k a with
        | some v => some ((List.lookup k b).getD v)
        | none => none := by
  induction a with
  | nil => simp
  | cons p rest ih =>
    rcases p with ⟨x, y⟩
    cases hk : (k == x) with
    | true =>
      have hx : k = x := by simpa using hk
      subst hx
      cases hb : List.lookup k b with
      | none => simp [List.lookup, hk, hb]
      | some m => simp [List.lookup, hk, hb]
    | false =>
      cases hb : List.lookup x b with
      | none => simp [List.lookup, hk, hb, ih]
      | some m => simp [List.lookup, hk, hb, ih]

theorem lookup_filter_keyless (k : String) (a b : List (String × DisabledMode))
    (h : List.lookup k a = none) :
    List.lookup k (b.filter (fun p => (List.lookup p.1 a).isNone))
      = List.lookup k b := by
  induction b with
  | nil => rfl
  | cons p rest ih =>
    rcases p with ⟨x, y⟩
    cases hk : (k == x) with
    | true =>
      have hx : k = x := by simpa using hk
      subst hx
      simp [List.filter_cons, h, List.lookup, hk]
    | false =>
      cases hf : (List.lookup x a).isNone with
      | true => simp [List.filter_cons, hf, List.lookup, hk, ih]
      | false => simp [List.filter_cons, hf, List.lookup, hk, ih]

theorem lookup_filter_keyed (k : String) (a b : List (String × DisabledMode))
    (v : DisabledMode) (h : List.lookup k a = some v) :
    List.lookup k (b.filter (fun p => (List.lookup p.1 a).isNone)) = none := by
  induction b with
  | nil => rfl
  | cons p rest ih =>
    rcases p with ⟨x, y⟩
    cases hk : (k == x) with
    | true =>
      have hx : k = x := by simpa using hk
      subst hx
      simp [List.filter_cons, h, List.lookup, hk, ih]
    | false =>
      cases hf : (List.lookup x a).isNone with
      | true => simp [List.filter_cons, hf, List.lookup, hk, ih]
      | false => simp [List.filter_cons, hf, ih]

theorem lookup_spreadMerge (k : String) (a b : List (String × DisabledMode)) :
    List.lookup k (spreadMerge a b)
      = (List.lookup k b<|>List.lookup k a) := by
  unfold spreadMerge
  rw [lookup_append_mode, lookup_spreadMap]
  cases ha : List.lookup k a with
  | none =>
    rw [lookup_filter_keyless k a b ha]
    cases hb : List.lookup k b <;> simp
  | some v =>
    rw [lookup_filter_keyed k a b v ha]
    cases hb : List.lookup k b <;> simp [hb]

/-- C9: the merged disabled-mode configuration read by the shell UI gives
device-local values precedence key-by-key over the window-published remote
config: for every key the merged per-app map answers with the local
(storage override) entry when present, else the remote entry; and the
merged default is the local default when present, else the remote
default. -/
theorem disabled_mode_local_precedence (remote : Option JsonVal)
    (stored : StorageRead) (k : String) :
    (readDisabledModeConfig remote stored).dflt
      = ((normalizeDisabledModeConfigUi (readStorageConfig stored)).dflt
          <|>(normalizeDisabledModeConfigUi remote).dflt) ∧
    List.lookup k (readDisabledModeConfig remote stored).apps
      = (List.lookup k
           (normalizeDisabledModeConfigUi (readStorageConfig stored)).apps
          <|>List.lookup k (normalizeDisabledModeConfigUi remote).apps) := by
  exact ⟨rfl, lookup_spreadMerge k _ _⟩

/-! ## C10: the poller records a baseline before it may reload -/

/-- C10: one tick of the remote-toggle poller (i) ignores network
failures, non-2xx statuses and unparseable bodies, (ii) ignores parsed
payloads that are not objects, (iii) never touches the reload guard while
no baseline is recorded — in particular the first successfully parsed
payload only records the baseline, (iv) records every accepted payload's
serialisation as the new baseline, (v) changes the reload guard only when
an accepted payload's serialisation differs from a non-empty recorded
baseline, and (vi) then issues the (guarded) reload. -/
theorem toggle_poll_baseline_before_reload :
    (∀ s : WatchState,
        watchPollStep s .err = s ∧ watchPollStep s .notOk = s ∧
        watchPollStep s .badJson = s) ∧
    (∀ (s : WatchState) (v : JsonVal), acceptedPoll v = false →
        watchPollStep s (.parsed v) = s) ∧
    (∀ (s : WatchState) (o : PollOutcome), s.last = "" →
        (watchPollStep s o).reload = s.reload) ∧
    (∀ (s : WatchState) (v : JsonVal), acceptedPoll v = true →
        (watchPollStep s (.parsed v)).last = stringify v) ∧
    (∀ (s : WatchState) (o : PollOutcome),
        (watchPollStep s o).reload ≠ s.reload →
        ∃ v, o = .parsed v ∧ acceptedPoll v = true ∧ s.last ≠ "" ∧
          stringify v ≠ s.last) ∧
    (∀ (s : WatchState) (v : JsonVal), acceptedPoll v = true →
        s.last ≠ "" → stringify v ≠ s.last →
        s.reload.reloadScheduled = false →
        (watchPollStep s (.parsed v)).reload.reloads
          = s.reload.reloads + 1) := by
  refine ⟨fun s => ⟨rfl, rfl, rfl⟩, ?_, ?_, ?_, ?_, ?_⟩
  · intro s v h
    simp [watchPollStep, h]
  · intro s o h
    cases o with
    | err => rfl
    | notOk => rfl
    | badJson => rfl
    | parsed v =>
      by_cases hv : acceptedPoll v = true
      · simp [watchPollStep, hv, h]
      · simp [watchPollStep, hv]
  · intro s v h
    simp [watchPollStep, h]
  · intro s o hne
    cases o with
    | err => exact absurd rfl hne
    | notOk => exact absurd rfl hne
    | badJson => exact absurd rfl hne
    | parsed v =>
      by_cases hv : acceptedPoll v = true
      · cases hc : (s.last != "" && stringify v != s.last) with
        | true =>
          have hc2 : (s.last != "") = true ∧ (stringify v != s.last) = true := by
            simpa using hc
          exact ⟨v, rfl, hv, by simpa using hc2.1, by simpa using hc2.2⟩
        | false =>
          exact absurd (by simp [watchPollStep, hv, hc]) hne
      · exact absurd (by simp [watchPollStep, hv]) hne
  · intro s v hv h1 h2 h3
    have hb1 : (s.last != "") = true := by simpa using h1
    have hb2 : (stringify v != s.last) = true := by simpa using h2
    simp [watchPollStep, hv, hb1, hb2, safeReload, h3]

/-- Witness for C10 at concrete inputs: a failed poll leaves the state
unchanged; the first valid object payload leaves the reload guard
untouched; and a later valid payload differing from the recorded baseline
increments the reload count. -/
theorem toggle_poll_baseline_before_reload_witness :
    watchPollStep ⟨"", ⟨false, 0⟩⟩ .err = ⟨"", ⟨false, 0⟩⟩ ∧
    (watchPollStep ⟨"", ⟨false, 0⟩⟩
        (.parsed (.jobj [("disabled", .jarr [])]))).reload
      = (⟨"", ⟨false, 0⟩⟩ : WatchState).reload ∧
    (watchPollStep ⟨"[]", ⟨false, 0⟩⟩ (.parsed (.jobj []))).reload.reloads
      = (⟨"[]", ⟨false, 0⟩⟩ : WatchState).reload.reloads + 1 :=
  ⟨(toggle_poll_baseline_before_reload.1 ⟨"", ⟨false, 0⟩⟩).1,
   toggle_poll_baseline_before_reload.2.2.1 ⟨"", ⟨false, 0⟩⟩
     (.parsed (.jobj [("disabled", .jarr [])])) rfl,
   toggle_poll_baseline_before_reload.2.2.2.2.2 ⟨"[]", ⟨false, 0⟩⟩ (.jobj [])
     (by decide) (by decide) (by decide) rfl⟩

end RootConfig
